import Mathlib

/-!
Shallow embedding of `FunctionAppService` (serverless-azure-functions,
`src/plugins/.../functionAppService.ts`) and proofs about its operations.

The service talks to an eventually-consistent control plane. We embed each
operation as a pure Lean function: network responses become explicit input
values (or response sequences, one per retry attempt), side effects become
event traces, and thrown JS errors become `Except.error`.
-/

namespace FunctionAppService

/-- One binding descriptor of a deployed unit (`functionConfig.config.bindings`
element). Fields that are optional in the JSON are `Option`s; JavaScript
truthiness of strings (empty string is falsy) is modelled explicitly where the
source relies on it. -/
structure Binding where
  type : String
  route : Option String
  authLevel : Option String
  methods : Option (List String)
deriving DecidableEq

/-- The `config` object of a `FunctionEnvelope`: an ordered binding list. -/
structure FunctionConfig where
  bindings : List Binding
deriving DecidableEq

/-- A deployed unit (`FunctionEnvelope` from `@azure/arm-appservice`): name and
binding configuration. -/
structure FunctionEnvelope where
  name : String
  config : FunctionConfig
deriving DecidableEq

/-- The compute host (`Site`): the fields the embedded operations read. -/
structure Site where
  id : String
  name : String
  defaultHostName : String
  enabledHostNames : List String
deriving DecidableEq

/-! ## cleanUp (reconciliation)

Source (lines 83-99): `cleanUp` lists the deployed functions, and for each
deployed function `func` pushes a `deleteFunction` task when
`serviceFunctions.includes(func.name)` holds. We embed the list of unit names
for which a delete task is issued, in issue order. -/

/-- Names for which `cleanUp` issues a delete: deployed functions whose name is
contained in the declared service-function list (the source's
`if (serviceFunctions.includes(func.name)) deleteTasks.push(...)`). -/
def cleanUpDeletes (serviceFunctions : List String)
    (deployedFunctions : List FunctionEnvelope) : List String :=
  (deployedFunctions.filter (fun func => serviceFunctions.contains func.name)).map
    (fun func => func.name)

/-- The deployed list of the spec's scenario: units `a`, `b`, `c` with no
bindings. -/
def demoDeployed : List FunctionEnvelope :=
  [{ name := "a", config := { bindings := [] } },
   { name := "b", config := { bindings := [] } },
   { name := "c", config := { bindings := [] } }]

/-! ## getFunctionHttpTriggerConfig (trigger extraction) -/

/-- The derived HTTP trigger projection returned by
`getFunctionHttpTriggerConfig`. -/
structure FunctionAppHttpTriggerConfig where
  authLevel : Option String
  methods : List String
  url : String
  route : Option String
  name : String
deriving DecidableEq

/-- JavaScript `a || b` for an optional string `a`: `undefined` and the empty
string are falsy, any other string is truthy. -/
def jsOrString (a : Option String) (b : String) : String :=
  match a with
  | none => b
  | some s => if s = "" then b else s

/-- Embedding of `getFunctionHttpTriggerConfig` (lines 354-373): find the first
binding of type `httpTrigger`; if none, return nothing; otherwise resolve the
route as `httpTrigger.route || functionConfig.name` (JS truthiness), build the
URL `defaultHostName + "/api/" + route`, and default the methods to `["*"]`
only when the field is absent (a present empty array is truthy in JS). -/
def getFunctionHttpTriggerConfig (functionApp : Site)
    (functionConfig : FunctionEnvelope) : Option FunctionAppHttpTriggerConfig :=
  match functionConfig.config.bindings.find? (fun binding => binding.type = "httpTrigger") with
  | none => none
  | some httpTrigger =>
    let route := jsOrString httpTrigger.route functionConfig.name
    let url := functionApp.defaultHostName ++ "/api/" ++ route
    some { authLevel := httpTrigger.authLevel
           methods := httpTrigger.methods.getD ["*"]
           url := url
           route := httpTrigger.route
           name := functionConfig.name }

/-- A host with default host name `h.example.net`. -/
def demoSite : Site :=
  { id := "/site/demo", name := "demo", defaultHostName := "h.example.net",
    enabledHostNames := ["demo.scm.azurewebsites.net"] }

/-- A unit whose only binding is an HTTP trigger with an explicit empty-string
route. -/
def emptyRouteUnit : FunctionEnvelope :=
  { name := "u",
    config := { bindings := [{ type := "httpTrigger", route := some "",
                               authLevel := some "function",
                               methods := some ["get"] }] } }

/-- The unit of the spec's trigger-extraction scenario: binding
`{type: "httpTrigger", route: "widgets/{id}", methods: ["get","post"]}`. -/
def widgetsUnit : FunctionEnvelope :=
  { name := "widgetsFn",
    config := { bindings := [{ type := "httpTrigger",
                               route := some "widgets/\x7bid\x7d",
                               authLevel := some "function",
                               methods := some ["get", "post"] }] } }

/-! ## Retry poller (`Utils.runWithRetry`) -/

/-- Source constant `FunctionAppService.retryCount` (line 18): 30 attempts. -/
def retryCount : Nat := 30

/-- Source constant `FunctionAppService.retryInterval` (line 19): 30000 ms. -/
def retryInterval : Nat := 30000

/-- Observable events of one retry-poller run: a probe attempt (with its
0-based index) or a fixed sleep between attempts. -/
inductive RetryEvent where
  | attempt (i : Nat)
  | sleep (ms : Nat)
deriving DecidableEq

/-- Modelled from the spec: `Utils.runWithRetry` (src/shared/utils) is not
under src/. Per spec §4.1 the poller invokes the probe up to the maximum
attempt count; each retryable failure is followed by a fixed sleep and a
re-invocation, and on exhausting the budget the last failure is surfaced.
`retryGo op delayMs lastErr i fuel` runs attempts `i, i+1, ...` with `fuel`
attempts remaining, returning the outcome and the event trace. -/
def retryGo (op : Nat → Except E A) (delayMs : Nat) :
    E → Nat → Nat → Except E A × List RetryEvent
  | lastErr, _, 0 => (Except.error lastErr, [])
  | _, i, fuel + 1 =>
    match op i with
    | Except.ok a => (Except.ok a, [RetryEvent.attempt i])
    | Except.error e =>
      let rest := retryGo op delayMs e (i + 1) fuel
      (rest.1, RetryEvent.attempt i :: RetryEvent.sleep delayMs :: rest.2)

/-- Modelled from the spec: the poller entry point — run the probe with the
given maximum attempt count and fixed delay, starting from attempt 0.
`initErr` stands for the (never surfaced when the budget is positive) value
thrown when no attempt ran at all. -/
def runWithRetry (op : Nat → Except E A) (maxAttempts delayMs : Nat) (initErr : E) :
    Except E A × List RetryEvent :=
  retryGo op delayMs initErr 0 maxAttempts

/-- The trace of `k` consecutive failed attempts starting at index `i`: each
attempt is followed by the fixed sleep. -/
def failTrace (delayMs : Nat) : Nat → Nat → List RetryEvent
  | _, 0 => []
  | i, k + 1 => RetryEvent.attempt i :: RetryEvent.sleep delayMs :: failTrace delayMs (i + 1) k

/-- Number of probe attempts recorded in a trace. -/
def attemptsOf : List RetryEvent → Nat
  | [] => 0
  | RetryEvent.attempt _ :: tr => attemptsOf tr + 1
  | RetryEvent.sleep _ :: tr => attemptsOf tr

/-- The sleeps recorded in a trace, in order. -/
def sleepsOf : List RetryEvent → List Nat
  | [] => []
  | RetryEvent.attempt _ :: tr => sleepsOf tr
  | RetryEvent.sleep ms :: tr => ms :: sleepsOf tr

/-! ## listFunctions -/

/-- One element of the listing endpoint's `data.value` array; `listFunctions`
projects out its `properties` field. -/
structure ListedFunction where
  properties : FunctionEnvelope
deriving DecidableEq

/-- The `data` object of a listing response. -/
structure ListResponseData where
  value : List ListedFunction
deriving DecidableEq

/-- A raw response of the listing endpoint: HTTP status and body. -/
structure ListResponse where
  status : Nat
  data : ListResponseData
deriving DecidableEq

/-- Modelled from the spec: `BaseService.stringify` (src/services/baseService)
is not under src/; it renders a response body for diagnostics
(`JSON.stringify`). We render the unit names of the body, comma separated. -/
def stringify (d : ListResponseData) : String :=
  String.intercalate "," (d.value.map (fun item => item.properties.name))

/-- The provisioning-timeout message thrown for a not-ready listing response
(lines 113-116), carrying the stringified raw body. -/
def provisioningTimeoutMessage (raw : String) : String :=
  "The function app is taking longer than usual to be provisioned. " ++
    "Please try again soon.\nResponse error data: \n" ++ raw

/-- The retryable condition of `listFunctions` (line 110): non-200 status or an
empty `data.value`. -/
def listNotReady (r : ListResponse) : Bool :=
  r.status != 200 || r.data.value.length == 0

/-- The probe `listFunctions` hands to the retry poller: given the control
plane's response for attempt `i`, fail with the provisioning-timeout error
built from that response's body when the not-ready condition holds, otherwise
return the response. -/
def listFunctionsProbe (resps : Nat → ListResponse) (i : Nat) : Except String ListResponse :=
  if listNotReady (resps i) then
    Except.error (provisioningTimeoutMessage (stringify (resps i).data))
  else
    Except.ok (resps i)

/-- Embedding of `listFunctions` (lines 101-128) over the sequence of control
plane responses, one per attempt: run the probe under the retry poller
(30 attempts, 30000 ms delay) and, on success, project each listed element to
its `properties`; the `catch` block only logs and rethrows. Returns the
outcome and the retry trace. -/
def listFunctions (resps : Nat → ListResponse) :
    Except String (List FunctionEnvelope) × List RetryEvent :=
  let run := runWithRetry (listFunctionsProbe resps) retryCount retryInterval ""
  match run.1 with
  | Except.ok resp => (Except.ok (resp.data.value.map (fun item => item.properties)), run.2)
  | Except.error e => (Except.error e, run.2)

/-! ## getFunction -/

/-- The `data` object of a single-unit get response. -/
structure GetFnData where
  properties : FunctionEnvelope
deriving DecidableEq

/-- A raw response of the single-unit endpoint. -/
structure GetFnResponse where
  status : Nat
  data : GetFnData
deriving DecidableEq

/-- The probe of `getFunction` (lines 142-151): any non-200 status is a
retryable failure. (The thrown message in the source references the outer
`response` binding before its initialization completes, so the attempt fails
either way; `getFunction` discards the message, and we model it as an opaque
constant.) -/
def getFunctionProbe (resps : Nat → GetFnResponse) (i : Nat) : Except String GetFnResponse :=
  if (resps i).status != 200 then Except.error "Function app not ready"
  else Except.ok (resps i)

/-- Embedding of `getFunction` (lines 135-157): run the probe under the retry
poller and return its `data.properties` on success; the surrounding
`try/catch` maps every failure — retry exhaustion included — to `null`,
embedded as `none`. -/
def getFunction (resps : Nat → GetFnResponse) : Option FunctionEnvelope :=
  match (runWithRetry (getFunctionProbe resps) retryCount retryInterval "").1 with
  | Except.ok resp => some resp.data.properties
  | Except.error _ => none

/-! ## deleteFunction -/

/-- The observable effect of `deleteFunction`: the DELETE request it issues. -/
inductive DeleteEvent where
  | deleteRequest (url : String)
deriving DecidableEq

/-- Embedding of `deleteFunction` (lines 57-65). The `Guard` helpers
(src/shared/guard) are not under src/; modelled from the spec (§4.2, §7):
`Guard.null` fails immediately on a null host and `Guard.empty` fails
immediately on an empty name — precondition violations, not retried. Past the
guards, the DELETE request against
`baseUrl + site.id + "/functions/" + name + "?api-version=2016-08-01"` is
issued. Returns the outcome and the request trace. -/
def deleteFunction (baseUrl : String) (functionApp : Option Site) (functionName : String) :
    Except String Unit × List DeleteEvent :=
  match functionApp with
  | none => (Except.error "Guard ArgumentNull", [])
  | some site =>
    if functionName = "" then (Except.error "Guard ArgumentEmpty", [])
    else
      let url := baseUrl ++ site.id ++ "/functions/" ++ functionName ++ "?api-version=2016-08-01"
      (Except.ok (), [DeleteEvent.deleteRequest url])

/-! ## updateFunctionAppSetting -/

/-- JavaScript object assignment `properties[setting] = value` on a settings
map embedded as an association list in insertion order: overwrite the value at
every entry whose key is `setting` when one exists, otherwise append the new
key at the end. -/
def objSet (props : List (String × String)) (setting value : String) :
    List (String × String) :=
  if props.any (fun p => p.1 = setting) then
    props.map (fun p => if p.1 = setting then (p.1, value) else p)
  else
    props ++ [(setting, value)]

/-- First-match lookup in a settings map (how the host reads the pushed
object). -/
def lookupProp (props : List (String × String)) (k : String) : Option String :=
  (props.find? (fun p => p.1 = k)).map (fun p => p.2)

/-- Embedding of `updateFunctionAppSetting` (lines 326-339): fetch the host's
current full settings map (`current`, the `properties` of
`listApplicationSettings`), set the one key locally, and push the whole map
back with a PUT. The value returned is the map sent as the PUT body. -/
def updateFunctionAppSetting (current : List (String × String)) (setting value : String) :
    List (String × String) :=
  objSet current setting value

/-! ## get (host descriptor fetch) -/

/-- The error object optionally carried by the host-descriptor response. -/
structure SiteError where
  code : String
deriving DecidableEq

/-- A raw host-descriptor response: an optional error object plus the site
payload the duck-typed response doubles as. -/
structure SiteResponse where
  error : Option SiteError
  site : Site
deriving DecidableEq

/-- Embedding of `get` (lines 30-40): when the response carries an error whose
code is `ResourceNotFound` or `ResourceGroupNotFound`, return null (embedded
as `none`) after logging; otherwise return the response itself. No path
throws. -/
def get (response : SiteResponse) : Option SiteResponse :=
  match response.error with
  | some err =>
    if err.code = "ResourceNotFound" || err.code = "ResourceGroupNotFound" then none
    else some response
  | none => some response

/-! ## uploadFunctions — external-package variant -/

/-- The observable steps of the external-package upload path, in the order the
source awaits them (lines 168-181). -/
inductive DeployEvent where
  | blobUpload
  | generateSas
  | settingsUpdate
  | triggerSync
deriving DecidableEq

/-- The settings object returned by the settings PUT (`response.data`), whose
`properties` are handed to `syncTriggers`. -/
structure SettingsResponse where
  properties : List (String × String)
deriving DecidableEq

/-- Outcomes of the external collaborators of the external-package path: each
step either succeeds with its value or throws. -/
structure ExternalDeployEnv where
  blobUploadResult : Except String Unit
  sasResult : Except String String
  settingsUpdateResult : String → Except String SettingsResponse
  syncResult : List (String × String) → Except String Unit

/-- Embedding of the `external` branch of `uploadFunctions` (lines 166-181):
sequentially await the blob-storage upload of the artifact, the SAS URL
generation, the settings read-modify-write (keyed by the SAS URL), and the
trigger sync on the returned properties. A step is recorded in the trace when
it is attempted; a thrown step aborts the rest. -/
def uploadFunctionsExternal (env : ExternalDeployEnv) :
    Except String Unit × List DeployEvent :=
  match env.blobUploadResult with
  | Except.error e => (Except.error e, [DeployEvent.blobUpload])
  | Except.ok _ =>
    match env.sasResult with
    | Except.error e => (Except.error e, [DeployEvent.blobUpload, DeployEvent.generateSas])
    | Except.ok sasUrl =>
      match env.settingsUpdateResult sasUrl with
      | Except.error e =>
        (Except.error e,
         [DeployEvent.blobUpload, DeployEvent.generateSas, DeployEvent.settingsUpdate])
      | Except.ok resp =>
        match env.syncResult resp.properties with
        | Except.error e =>
          (Except.error e,
           [DeployEvent.blobUpload, DeployEvent.generateSas, DeployEvent.settingsUpdate,
            DeployEvent.triggerSync])
        | Except.ok _ =>
          (Except.ok (),
           [DeployEvent.blobUpload, DeployEvent.generateSas, DeployEvent.settingsUpdate,
            DeployEvent.triggerSync])

/-- Index of the first occurrence of an event in a trace. -/
def evIdx : List DeployEvent → DeployEvent → Option Nat
  | [], _ => none
  | e :: tr, a => if e = a then some 0 else (evIdx tr a).map (fun n => n + 1)

/-- `a` strictly precedes `b` in the trace: whenever `b` occurs at all, `a`
occurs at a strictly smaller first index. -/
def strictlyBefore (tr : List DeployEvent) (a b : DeployEvent) : Bool :=
  match evIdx tr b with
  | none => true
  | some j =>
    match evIdx tr a with
    | none => false
    | some i => decide (i < j)

/-- An external-package environment whose object-storage upload throws; every
later collaborator would succeed if it were reached. -/
def failingUploadEnv : ExternalDeployEnv :=
  { blobUploadResult := Except.error "storage upload failed"
    sasResult := Except.ok "https://storage/sas"
    settingsUpdateResult := fun _ => Except.ok { properties := [] }
    syncResult := fun _ => Except.ok () }

/-! ## uploadZippedArfifactToFunctionApp (direct push) -/

/-- The network calls of the direct-push path, in source order: the bearer
token fetch for the request headers, then the zip-deploy POST to the host's
SCM endpoint. -/
inductive PushEvent where
  | fetchAccessToken
  | zipDeployPost
deriving DecidableEq

/-- `getScmDomain` (lines 390-394): the enabled host name containing the
management-subdomain marker `.scm.` and ending in `.azurewebsites.net`. -/
def getScmDomain (functionApp : Site) : Option String :=
  functionApp.enabledHostNames.find?
    (fun hostName =>
      (hostName.splitOn ".scm.").length != 1 && hostName.endsWith ".azurewebsites.net")

/-- Embedding of `uploadZippedArfifactToFunctionApp` (lines 284-309) over the
local file system `fsExists` and the outcome `send` of `sendFile`. After the
local SCM-domain lookup, the guard
`!(functionZipFile && fs.existsSync(functionZipFile))` (JS truthiness: the
empty path is falsy, short-circuiting the existence check) throws
"No zip file found for function app" before the token fetch and the POST;
otherwise both network calls are issued, with no retry on failure. -/
def uploadZippedArfifactToFunctionApp (fsExists : String → Bool)
    (send : Except String Unit) (functionApp : Site) (functionZipFile : String) :
    Except String Unit × List PushEvent :=
  let _scmDomain := getScmDomain functionApp
  if functionZipFile = "" ∨ fsExists functionZipFile = false then
    (Except.error "No zip file found for function app", [])
  else
    (send, [PushEvent.fetchAccessToken, PushEvent.zipDeployPost])

/-- A listing-endpoint behavior that is empty for attempts 0 and 1 and lists
one unit from attempt 2 on. -/
def demoListResponses : Nat → ListResponse := fun i =>
  if i < 2 then { status := 200, data := { value := [] } }
  else
    { status := 200,
      data := { value := [{ properties := { name := "a", config := { bindings := [] } } }] } }

/-- A single-unit endpoint behavior that always answers 404. -/
def demo404Responses : Nat → GetFnResponse := fun _ =>
  { status := 404,
    data := { properties := { name := "x", config := { bindings := [] } } } }

/-- A host-descriptor response carrying a `ResourceNotFound` error. -/
def notFoundResponse : SiteResponse :=
  { error := some { code := "ResourceNotFound" }, site := demoSite }

/-! ## Theorems -/

/-- Claim C1, counterexample: with declared names `["a","b"]` and observed
units `["a","b","c"]`, `cleanUp` issues deletes for `"a"` and `"b"` — not the
single delete for `"c"` the claim requires. The source deletes a deployed unit
precisely when `serviceFunctions.includes(func.name)` holds, i.e. the units in
O ∩ D, not O \ D. -/
theorem cleanUp_counterexample :
    cleanUpDeletes ["a", "b"] demoDeployed = ["a", "b"] ∧
      ¬ cleanUpDeletes ["a", "b"] demoDeployed = ["c"] := by
  constructor
  · rfl
  · decide

/-- Claim C1, amended: `cleanUp` issues a delete for exactly the units that
are both observed and declared (O ∩ D) and issues no delete for any unit
observed but not declared (O \ D); with declared names `["a","b"]` and
observed units `["a","b","c"]` it issues exactly two deletes, for `"a"` and
`"b"`. -/
theorem cleanUp_deletes_observed_and_declared :
    (∀ (serviceFunctions : List String) (deployed : List FunctionEnvelope) (n : String),
        n ∈ cleanUpDeletes serviceFunctions deployed ↔
          ((∃ f ∈ deployed, f.name = n) ∧ n ∈ serviceFunctions)) ∧
      cleanUpDeletes ["a", "b"] demoDeployed = ["a", "b"] := by
  constructor
  · intro serviceFunctions deployed n
    simp only [cleanUpDeletes, List.mem_map, List.mem_filter]
    constructor
    · rintro ⟨f, ⟨hfO, hc⟩, rfl⟩
      exact ⟨⟨f, hfO, rfl⟩, by simpa using hc⟩
    · rintro ⟨⟨f, hfO, rfl⟩, hn⟩
      exact ⟨f, ⟨hfO, by simpa using hn⟩, rfl⟩
  · rfl

/-- Claim C3, counterexample: a unit named `"u"` whose HTTP-trigger binding
carries the explicit (present) route `""` yields the URL
`h.example.net/api/u`, not the URL `h.example.net/api/` that "the binding's
explicit route field if present" requires: the source's
`httpTrigger.route || functionConfig.name` treats the present-but-empty route
as falsy and falls back to the unit's name. -/
theorem trigger_route_counterexample :
    (getFunctionHttpTriggerConfig demoSite emptyRouteUnit).map
        (fun cfg => cfg.url) = some "h.example.net/api/u" ∧
      ¬ (getFunctionHttpTriggerConfig demoSite emptyRouteUnit).map
          (fun cfg => cfg.url) = some "h.example.net/api/" := by
  constructor
  · rfl
  · decide

/-- Claim C3, amended: trigger extraction returns no result (and raises no
error) when no binding of type `httpTrigger` exists; when such a binding is
found, the returned config's URL is the host's default host name concatenated
with `/api/` and the route, where the route is the binding's route field if
present *and non-empty* and otherwise the unit's name, and the methods are the
binding's explicit method list if present and otherwise `["*"]` (the auth
level is passed through). -/
theorem getFunctionHttpTriggerConfig_spec (site : Site) (u : FunctionEnvelope) :
    ((∀ b ∈ u.config.bindings, b.type ≠ "httpTrigger") →
       getFunctionHttpTriggerConfig site u = none) ∧
      (∀ b, u.config.bindings.find? (fun binding => binding.type = "httpTrigger") = some b →
        getFunctionHttpTriggerConfig site u =
          some { authLevel := b.authLevel
                 methods := b.methods.getD ["*"]
                 url := site.defaultHostName ++ "/api/" ++
                   (match b.route with
                    | some r => if r = "" then u.name else r
                    | none => u.name)
                 route := b.route
                 name := u.name }) := by
  constructor
  · intro h
    have hnone : u.config.bindings.find?
        (fun binding => binding.type = "httpTrigger") = none :=
      List.find?_eq_none.mpr (fun b hb => by simpa using h b hb)
    simp [getFunctionHttpTriggerConfig, hnone]
  · intro b hb
    simp only [getFunctionHttpTriggerConfig, hb]
    cases hbr : b.route <;> simp [jsOrString, hbr]

/-- Claim C3, witness: applying the amended statement to the unit with the
present-but-empty route resolves the route to the unit's name. -/
theorem getFunctionHttpTriggerConfig_spec_witness :
    getFunctionHttpTriggerConfig demoSite emptyRouteUnit =
      some { authLevel := some "function", methods := ["get"],
             url := "h.example.net/api/u", route := some "", name := "u" } :=
  (getFunctionHttpTriggerConfig_spec demoSite emptyRouteUnit).2
    { type := "httpTrigger", route := some "", authLevel := some "function",
      methods := some ["get"] } rfl

/-- Claim C4, counterexample: for the binding
`{type: "httpTrigger", route: "widgets/{id}", methods: ["get","post"]}` the
extraction returns the methods exactly as given, `["get","post"]`, not the
upper-cased `["GET","POST"]` the claim requires; the source never
case-normalizes the returned method list (only the deploy-time log uppercases
the first method for display). -/
theorem trigger_methods_counterexample :
    (getFunctionHttpTriggerConfig demoSite widgetsUnit).map
        (fun cfg => cfg.methods) = some ["get", "post"] ∧
      ¬ (getFunctionHttpTriggerConfig demoSite widgetsUnit).map
          (fun cfg => cfg.methods) = some ["GET", "POST"] := by
  constructor
  · rfl
  · decide

/-- Claim C4, amended: for a unit whose binding list contains
`{type: "httpTrigger", route: "widgets/{id}", methods: ["get","post"]}` and a
host whose default host name is `h.example.net`, trigger extraction yields the
URL `h.example.net/api/widgets/{id}`, the methods `["get","post"]` exactly as
given in the binding (no case normalization), and the auth level as given. -/
theorem widgets_trigger_extraction :
    getFunctionHttpTriggerConfig demoSite widgetsUnit =
      some { authLevel := some "function", methods := ["get", "post"],
             url := "h.example.net/api/widgets/\x7bid\x7d",
             route := some "widgets/\x7bid\x7d", name := "widgetsFn" } := by
  rfl

/-- Claim C5: in the external-package variant of `uploadFunctions`, the
object-storage upload strictly precedes the settings read-modify-write, which
strictly precedes the trigger sync; and if the object-storage upload fails,
neither the settings update nor the trigger sync is ever attempted. -/
theorem uploadFunctionsExternal_ordering (env : ExternalDeployEnv) :
    strictlyBefore (uploadFunctionsExternal env).2
        DeployEvent.blobUpload DeployEvent.settingsUpdate = true ∧
      strictlyBefore (uploadFunctionsExternal env).2
        DeployEvent.settingsUpdate DeployEvent.triggerSync = true ∧
      (∀ e, env.blobUploadResult = Except.error e →
        DeployEvent.settingsUpdate ∉ (uploadFunctionsExternal env).2 ∧
          DeployEvent.triggerSync ∉ (uploadFunctionsExternal env).2) := by
  cases hbu : env.blobUploadResult with
  | error e =>
    refine ⟨?_, ?_, ?_⟩
    · simp [uploadFunctionsExternal, hbu, strictlyBefore, evIdx]
    · simp [uploadFunctionsExternal, hbu, strictlyBefore, evIdx]
    · intro e₀ _
      constructor <;> simp [uploadFunctionsExternal, hbu]
  | ok bu =>
    cases hsas : env.sasResult with
    | error e =>
      refine ⟨?_, ?_, fun e₀ he₀ => Except.noConfusion he₀⟩ <;>
        simp [uploadFunctionsExternal, hbu, hsas, strictlyBefore, evIdx]
    | ok sasUrl =>
      cases hset : env.settingsUpdateResult sasUrl with
      | error e =>
        refine ⟨?_, ?_, fun e₀ he₀ => Except.noConfusion he₀⟩ <;>
          simp [uploadFunctionsExternal, hbu, hsas, hset, strictlyBefore, evIdx]
      | ok resp =>
        cases hsync : env.syncResult resp.properties with
        | error e =>
          refine ⟨?_, ?_, fun e₀ he₀ => Except.noConfusion he₀⟩ <;>
            simp [uploadFunctionsExternal, hbu, hsas, hset, hsync, strictlyBefore, evIdx]
        | ok u =>
          refine ⟨?_, ?_, fun e₀ he₀ => Except.noConfusion he₀⟩ <;>
            simp [uploadFunctionsExternal, hbu, hsas, hset, hsync, strictlyBefore, evIdx]

/-- Claim C5, witness: with the object-storage upload mocked to fail, neither
the settings update nor the trigger sync appears in the trace. -/
theorem uploadFunctionsExternal_ordering_witness :
    DeployEvent.settingsUpdate ∉ (uploadFunctionsExternal failingUploadEnv).2 ∧
      DeployEvent.triggerSync ∉ (uploadFunctionsExternal failingUploadEnv).2 :=
  (uploadFunctionsExternal_ordering failingUploadEnv).2.2 "storage upload failed" rfl

/-- Claim C6: every call of the direct-push upload with an artifact path that
is empty or does not exist on local storage fails with the fatal
"No zip file found" error, and its trace is empty — neither the token fetch
nor the zip-deploy POST to the host's deployment endpoint is issued, and in
particular nothing is retried. -/
theorem uploadZip_missing_artifact (fsExists : String → Bool)
    (send : Except String Unit) (functionApp : Site) (functionZipFile : String)
    (h : functionZipFile = "" ∨ fsExists functionZipFile = false) :
    (uploadZippedArfifactToFunctionApp fsExists send functionApp functionZipFile).1 =
        Except.error "No zip file found for function app" ∧
      (uploadZippedArfifactToFunctionApp fsExists send functionApp functionZipFile).2 = [] := by
  unfold uploadZippedArfifactToFunctionApp
  rw [if_pos h]
  exact ⟨rfl, rfl⟩

/-- Claim C6, witness: pushing a non-existent artifact path issues no network
call. -/
theorem uploadZip_missing_artifact_witness :
    (uploadZippedArfifactToFunctionApp (fun _ => false) (Except.ok ())
        demoSite "dist/app.zip").2 = [] :=
  (uploadZip_missing_artifact (fun _ => false) (Except.ok ())
    demoSite "dist/app.zip" (Or.inr rfl)).2

/-- Claim C7: `deleteFunction` requires a non-null host and a non-empty unit
name: when the host is null or the name is empty it fails immediately with no
DELETE request issued; under the precondition the guard branch is not taken
and the DELETE request against the unit's resource URL is issued. -/
theorem deleteFunction_guard (baseUrl : String) (functionApp : Option Site)
    (functionName : String) :
    ((functionApp = none ∨ functionName = "") →
       (∃ e, (deleteFunction baseUrl functionApp functionName).1 = Except.error e) ∧
         (deleteFunction baseUrl functionApp functionName).2 = []) ∧
      (∀ site, functionApp = some site → functionName ≠ "" →
        (deleteFunction baseUrl functionApp functionName).1 = Except.ok () ∧
          (deleteFunction baseUrl functionApp functionName).2 =
            [DeleteEvent.deleteRequest
              (baseUrl ++ site.id ++ "/functions/" ++ functionName ++
                "?api-version=2016-08-01")]) := by
  constructor
  · intro h
    cases hfa : functionApp with
    | none => exact ⟨⟨"Guard ArgumentNull", rfl⟩, rfl⟩
    | some site =>
      have hname : functionName = "" := by
        rcases h with h | h
        · rw [hfa] at h; cases h
        · exact h
      constructor
      · exact ⟨"Guard ArgumentEmpty", by simp [deleteFunction, hname]⟩
      · simp [deleteFunction, hname]
  · intro site hfa hname
    subst hfa
    constructor <;> simp [deleteFunction, hname]

/-- Claim C7, witness: with a concrete host and the non-empty name `fn`, the
DELETE request is issued against the expected URL. -/
theorem deleteFunction_guard_witness :
    (deleteFunction "https://management.azure.com" (some demoSite) "fn").2 =
      [DeleteEvent.deleteRequest
        "https://management.azure.com/site/demo/functions/fn?api-version=2016-08-01"] :=
  ((deleteFunction_guard "https://management.azure.com" (some demoSite) "fn").2
    demoSite rfl (by decide)).2

/-- Unfolding: first-match lookup on a non-empty settings map. -/
theorem lookupProp_cons (q : String × String) (l : List (String × String)) (k : String) :
    lookupProp (q :: l) k = if q.1 = k then some q.2 else lookupProp l k := by
  by_cases h : q.1 = k
  · rw [lookupProp, List.find?_cons_of_pos _ (by simp [h]), if_pos h]
    rfl
  · rw [lookupProp, List.find?_cons_of_neg _ (by simp [h]), if_neg h]
    rfl

/-- Overwriting the `setting` entries of a map leaves every other key's lookup
unchanged. -/
theorem lookupProp_setMap_other (setting value k : String) (hk : k ≠ setting) :
    ∀ ps : List (String × String),
      lookupProp (ps.map (fun p => if p.1 = setting then (p.1, value) else p)) k =
        lookupProp ps k := by
  intro ps
  induction ps with
  | nil => rfl
  | cons p ps ih =>
    have hq1 : (if p.1 = setting then (p.1, value) else p).1 = p.1 := by
      split <;> rfl
    rw [List.map_cons, lookupProp_cons, hq1, lookupProp_cons]
    by_cases hpk : p.1 = k
    · rw [if_pos hpk, if_pos hpk, if_neg (by rw [hpk]; exact hk)]
    · rw [if_neg hpk, if_neg hpk, ih]

/-- Overwriting the `setting` entries of a map that contains the key makes its
lookup yield the new value. -/
theorem lookupProp_setMap_self (setting value : String) :
    ∀ ps : List (String × String),
      ps.any (fun p => p.1 = setting) = true →
      lookupProp (ps.map (fun p => if p.1 = setting then (p.1, value) else p)) setting =
        some value := by
  intro ps
  induction ps with
  | nil => intro h; cases h
  | cons p ps ih =>
    intro hany
    have hq1 : (if p.1 = setting then (p.1, value) else p).1 = p.1 := by
      split <;> rfl
    rw [List.map_cons, lookupProp_cons, hq1]
    by_cases hps : p.1 = setting
    · rw [if_pos hps, if_pos hps]
    · rw [if_neg hps]
      refine ih ?_
      simp only [List.any_cons, hps] at hany
      simpa using hany

/-- Appending an entry whose key differs from `k` does not change `k`'s
lookup. -/
theorem lookupProp_append_singleton (q : String × String) (k : String) (hq : q.1 ≠ k) :
    ∀ l : List (String × String), lookupProp (l ++ [q]) k = lookupProp l k := by
  intro l
  induction l with
  | nil =>
    rw [List.nil_append, lookupProp_cons, if_neg hq]
  | cons p ps ih =>
    rw [List.cons_append, lookupProp_cons, lookupProp_cons, ih]

/-- Appending an entry to a map none of whose keys is `k` makes `k`'s lookup
find the appended entry. -/
theorem lookupProp_append_fresh (q : String × String) (k : String)
    (hqk : q.1 = k) :
    ∀ l : List (String × String), (∀ p ∈ l, p.1 ≠ k) →
      lookupProp (l ++ [q]) k = some q.2 := by
  intro l
  induction l with
  | nil =>
    intro _
    rw [List.nil_append, lookupProp_cons, if_pos hqk]
  | cons p ps ih =>
    intro h
    rw [List.cons_append, lookupProp_cons, if_neg (h p (List.mem_cons_self p ps))]
    exact ih (fun r hr => h r (List.mem_cons_of_mem p hr))

/-- Claim C8: `updateFunctionAppSetting` is a read-modify-write of the host's
full settings map: the map pushed back maps the written key to the new value
and maps every other key to exactly the value of the fetched current map — no
other key is added, removed, or changed. -/
theorem updateFunctionAppSetting_rmw (current : List (String × String))
    (setting value k : String) :
    lookupProp (updateFunctionAppSetting current setting value) setting = some value ∧
      (k ≠ setting →
        lookupProp (updateFunctionAppSetting current setting value) k =
          lookupProp current k) := by
  constructor
  · unfold updateFunctionAppSetting objSet
    split
    · rename_i hany
      exact lookupProp_setMap_self setting value current hany
    · rename_i hany
      refine lookupProp_append_fresh (setting, value) setting rfl current ?_
      intro p hp hps
      exact hany (List.any_of_mem hp (by simp [hps]))
  · intro hk
    unfold updateFunctionAppSetting objSet
    split
    · exact lookupProp_setMap_other setting value k hk current
    · exact lookupProp_append_singleton (setting, value) k (Ne.symm hk) current

/-- Claim C8, witness: writing `WEBSITE_RUN_FROM_PACKAGE` into a map holding
`FOO` keeps `FOO` at its fetched value and stores the new value. -/
theorem updateFunctionAppSetting_rmw_witness :
    lookupProp (updateFunctionAppSetting [("FOO", "1")] "WEBSITE_RUN_FROM_PACKAGE"
        "https://storage/sas") "WEBSITE_RUN_FROM_PACKAGE" = some "https://storage/sas" ∧
      lookupProp (updateFunctionAppSetting [("FOO", "1")] "WEBSITE_RUN_FROM_PACKAGE"
        "https://storage/sas") "FOO" = some "1" := by
  constructor
  · exact (updateFunctionAppSetting_rmw [("FOO", "1")] "WEBSITE_RUN_FROM_PACKAGE"
      "https://storage/sas" "FOO").1
  · rw [(updateFunctionAppSetting_rmw [("FOO", "1")] "WEBSITE_RUN_FROM_PACKAGE"
      "https://storage/sas" "FOO").2 (by decide)]
    rfl

/-- Claim C9: the host-descriptor fetch returns the absent value (not an
error) when the response carries a not-found error for the resource group or
the resource itself, and returns the response itself (a non-empty result) in
every other case, so callers distinguish "no host yet" by checking for the
empty result. -/
theorem get_not_found_absent (response : SiteResponse) :
    (∀ err, response.error = some err →
       (err.code = "ResourceNotFound" ∨ err.code = "ResourceGroupNotFound") →
       get response = none) ∧
      ((∀ err, response.error = some err →
          err.code ≠ "ResourceNotFound" ∧ err.code ≠ "ResourceGroupNotFound") →
        get response = some response) := by
  constructor
  · intro err herr hcode
    simp only [get, herr]
    rw [if_pos]
    rcases hcode with h | h <;> simp [h]
  · intro h
    cases herr : response.error with
    | none => simp [get, herr]
    | some err =>
      have hc := h err herr
      simp [get, herr, hc.1, hc.2]

/-- Claim C9, witness: a `ResourceNotFound` response yields the absent
result. -/
theorem get_not_found_absent_witness : get notFoundResponse = none :=
  (get_not_found_absent notFoundResponse).1 { code := "ResourceNotFound" } rfl
    (Or.inl rfl)

/-- Counting attempts across a trace concatenation. -/
theorem attemptsOf_append (t1 t2 : List RetryEvent) :
    attemptsOf (t1 ++ t2) = attemptsOf t1 + attemptsOf t2 := by
  induction t1 with
  | nil => simp [attemptsOf]
  | cons e tr ih =>
    cases e with
    | attempt i => simp [attemptsOf, ih]; omega
    | sleep ms => simp [attemptsOf, ih]

/-- Collecting sleeps across a trace concatenation. -/
theorem sleepsOf_append (t1 t2 : List RetryEvent) :
    sleepsOf (t1 ++ t2) = sleepsOf t1 ++ sleepsOf t2 := by
  induction t1 with
  | nil => simp [sleepsOf]
  | cons e tr ih => cases e <;> simp [sleepsOf, ih]

/-- A run of `k` failed attempts records `k` attempts. -/
theorem attemptsOf_failTrace (d : Nat) :
    ∀ (k i : Nat), attemptsOf (failTrace d i k) = k := by
  intro k
  induction k with
  | zero => intro i; rfl
  | succ n ih => intro i; simp [failTrace, attemptsOf, ih]

/-- A run of `k` failed attempts records `k` sleeps of the fixed delay. -/
theorem sleepsOf_failTrace (d : Nat) :
    ∀ (k i : Nat), sleepsOf (failTrace d i k) = List.replicate k d := by
  intro k
  induction k with
  | zero => intro i; rfl
  | succ n ih => intro i; simp [failTrace, sleepsOf, ih, List.replicate_succ]

/-- One poller step on a failing probe attempt: record the attempt and the
sleep, carry the error forward, and continue with the remaining budget. -/
theorem retryGo_cons_error (op : Nat → Except E A) (d : Nat) (e0 e : E) (i fuel : Nat)
    (he : op i = Except.error e) :
    retryGo op d e0 i (fuel + 1) =
      ((retryGo op d e (i + 1) fuel).1,
        RetryEvent.attempt i :: RetryEvent.sleep d :: (retryGo op d e (i + 1) fuel).2) := by
  simp [retryGo, he]

/-- Retry-poller success: if the probe fails on the `k` attempts starting at
`i` and succeeds on attempt `i + k`, and the budget allows attempt `i + k`,
the run returns the success after the `k` failed attempts (each followed by
the fixed sleep) and the final successful attempt. -/
theorem retryGo_success (op : Nat → Except E A) (d : Nat) (a : A) :
    ∀ (k i fuel : Nat) (e0 : E), k < fuel →
      (∀ j, j < k → ∃ e, op (i + j) = Except.error e) →
      op (i + k) = Except.ok a →
      retryGo op d e0 i fuel =
        (Except.ok a, failTrace d i k ++ [RetryEvent.attempt (i + k)]) := by
  intro k
  induction k with
  | zero =>
    intro i fuel e0 hk _ hok
    cases fuel with
    | zero => omega
    | succ f =>
      rw [Nat.add_zero] at hok
      simp [retryGo, hok, failTrace]
  | succ n ih =>
    intro i fuel e0 hk hfail hok
    cases fuel with
    | zero => omega
    | succ f =>
      obtain ⟨e, he⟩ := hfail 0 (Nat.succ_pos n)
      rw [Nat.add_zero] at he
      have hrest := ih (i + 1) f e (by omega)
        (fun j hj => by
          obtain ⟨e', he'⟩ := hfail (j + 1) (by omega)
          exact ⟨e', by rw [show i + 1 + j = i + (j + 1) by omega]; exact he'⟩)
        (by rw [show i + 1 + n = i + (n + 1) by omega]; exact hok)
      simp [retryGo, he, hrest, failTrace, show i + 1 + n = i + (n + 1) by omega]

/-- Retry-poller exhaustion: if the probe fails on every attempt within the
budget, the run surfaces the failure of the last attempt, after recording
every attempt and the fixed sleep after each. -/
theorem retryGo_exhaust (op : Nat → Except E A) (d : Nat) (errs : Nat → E) :
    ∀ (fuel i : Nat) (e0 : E), 0 < fuel →
      (∀ j, j < fuel → op (i + j) = Except.error (errs (i + j))) →
      retryGo op d e0 i fuel =
        (Except.error (errs (i + fuel - 1)), failTrace d i fuel) := by
  intro fuel
  induction fuel with
  | zero => intro i e0 h; omega
  | succ f ih =>
    intro i e0 _ hfail
    have he := hfail 0 (Nat.succ_pos f)
    rw [Nat.add_zero] at he
    cases f with
    | zero =>
      simp [retryGo, he, failTrace]
    | succ f' =>
      have hrest := ih (i + 1) (errs i) (Nat.succ_pos f')
        (fun j hj => by
          rw [show i + 1 + j = i + (j + 1) by omega]
          exact hfail (j + 1) (by omega))
      rw [show i + 1 + (f' + 1) - 1 = i + (f' + 1 + 1) - 1 by omega] at hrest
      rw [retryGo_cons_error op d e0 (errs i) i (f' + 1) he, hrest]
      simp [failTrace]

/-- Retry-poller success inversion: a successful run comes from a successful
probe attempt within the budget. -/
theorem retryGo_ok_attempt (op : Nat → Except E A) (d : Nat) :
    ∀ (fuel i : Nat) (e0 : E) (a : A) (tr : List RetryEvent),
      retryGo op d e0 i fuel = (Except.ok a, tr) →
      ∃ j, j < fuel ∧ op (i + j) = Except.ok a := by
  intro fuel
  induction fuel with
  | zero =>
    intro i e0 a tr h
    simp [retryGo] at h
  | succ f ih =>
    intro i e0 a tr h
    cases hop : op i with
    | ok b =>
      simp [retryGo, hop] at h
      exact ⟨0, Nat.succ_pos f, by rw [Nat.add_zero, hop, h.1]⟩
    | error e =>
      simp only [retryGo, hop] at h
      have h1 : (retryGo op d e (i + 1) f).1 = Except.ok a := by
        rw [Prod.ext_iff] at h
        exact h.1
      have heq : retryGo op d e (i + 1) f =
          (Except.ok a, (retryGo op d e (i + 1) f).2) := by
        rw [← h1]
      obtain ⟨j, hj, hja⟩ := ih (i + 1) e a (retryGo op d e (i + 1) f).2 heq
      exact ⟨j + 1, by omega, by rw [show i + (j + 1) = i + 1 + j by omega]; exact hja⟩

/-- Claim C2: for `listFunctions`, a 200 response with a non-empty result set
is success while a 200 response with an empty result set or a non-200 status
is retryable; if the retryable condition holds for exactly `k < 30`
consecutive attempts and attempt `k + 1` is a non-empty success, the operation
succeeds after exactly `k + 1` attempts with a 30000 ms sleep after each
failed attempt; if it holds for all 30 attempts, the operation fails with the
provisioning-timeout error carrying the last observed raw response body. -/
theorem listFunctions_retry_spec :
    (∀ (resps : Nat → ListResponse) (k : Nat), k < retryCount →
       (∀ i, i < k → listNotReady (resps i) = true) →
       listNotReady (resps k) = false →
       (listFunctions resps).1 =
           Except.ok ((resps k).data.value.map (fun item => item.properties)) ∧
         attemptsOf (listFunctions resps).2 = k + 1 ∧
         sleepsOf (listFunctions resps).2 = List.replicate k retryInterval) ∧
      (∀ resps : Nat → ListResponse,
        (∀ i, i < retryCount → listNotReady (resps i) = true) →
        (listFunctions resps).1 =
          Except.error
            (provisioningTimeoutMessage (stringify (resps (retryCount - 1)).data))) := by
  constructor
  · intro resps k hk hfail hok
    have hrun := retryGo_success (listFunctionsProbe resps) retryInterval (resps k)
      k 0 retryCount "" hk
      (fun j hj =>
        ⟨provisioningTimeoutMessage (stringify (resps j).data), by
          simp only [Nat.zero_add, listFunctionsProbe, hfail j hj]
          rfl⟩)
      (by simp only [Nat.zero_add, listFunctionsProbe, hok]; rfl)
    refine ⟨?_, ?_, ?_⟩
    · simp [listFunctions, runWithRetry, hrun]
    · simp [listFunctions, runWithRetry, hrun, attemptsOf_append,
        attemptsOf_failTrace, attemptsOf]
    · simp [listFunctions, runWithRetry, hrun, sleepsOf_append,
        sleepsOf_failTrace, sleepsOf]
  · intro resps hfail
    have hrun := retryGo_exhaust (listFunctionsProbe resps) retryInterval
      (fun j => provisioningTimeoutMessage (stringify (resps j).data))
      retryCount 0 "" (by decide)
      (fun j hj => by
        simp only [Nat.zero_add, listFunctionsProbe, hfail j hj]
        rfl)
    simp only [Nat.zero_add] at hrun
    simp [listFunctions, runWithRetry, hrun]

/-- Claim C2, witness: against an endpoint that is empty for attempts 0 and 1
and lists unit `a` from attempt 2 on, `listFunctions` succeeds with unit `a`
after exactly 3 attempts, with a 30000 ms sleep after each of the 2 failed
attempts. -/
theorem listFunctions_retry_spec_witness :
    (listFunctions demoListResponses).1 =
        Except.ok [{ name := "a", config := { bindings := [] } }] ∧
      attemptsOf (listFunctions demoListResponses).2 = 3 ∧
      sleepsOf (listFunctions demoListResponses).2 = [30000, 30000] := by
  have h := listFunctions_retry_spec.1 demoListResponses 2 (by decide)
    (fun i hi => by
      match i, hi with
      | 0, _ => rfl
      | 1, _ => rfl)
    (by rfl)
  refine ⟨?_, h.2.1, ?_⟩
  · rw [h.1]
    rfl
  · rw [h.2.2]
    rfl

/-- Claim C10: `getFunction` never propagates an error: whenever every probe
attempt within the retry budget has a non-200 status, it returns the absent
value `none` instead of throwing, and it returns a unit configuration only
when some probe attempt within the budget returned HTTP status 200. -/
theorem getFunction_never_throws (resps : Nat → GetFnResponse) :
    ((∀ i, i < retryCount → (resps i).status ≠ 200) → getFunction resps = none) ∧
      (∀ cfg, getFunction resps = some cfg →
        ∃ i, i < retryCount ∧ (resps i).status = 200) := by
  constructor
  · intro h
    have hrun := retryGo_exhaust (getFunctionProbe resps) retryInterval
      (fun _ => "Function app not ready") retryCount 0 "" (by decide)
      (fun j hj => by
        have hb : ((resps (0 + j)).status != 200) = true := by
          rw [Nat.zero_add]
          simpa using h j hj
        simp only [getFunctionProbe, hb]
        rfl)
    simp [getFunction, runWithRetry, hrun]
  · intro cfg hcfg
    rcases hrun : (runWithRetry (getFunctionProbe resps) retryCount retryInterval "").1 with
      e | resp
    · rw [getFunction, hrun] at hcfg
      cases hcfg
    · have heq : runWithRetry (getFunctionProbe resps) retryCount retryInterval "" =
          (Except.ok resp,
            (runWithRetry (getFunctionProbe resps) retryCount retryInterval "").2) := by
        rw [← hrun]
      obtain ⟨j, hj, hja⟩ := retryGo_ok_attempt (getFunctionProbe resps) retryInterval
        retryCount 0 "" resp _ heq
      refine ⟨j, hj, ?_⟩
      rw [Nat.zero_add] at hja
      by_contra hne
      have hb : ((resps j).status != 200) = true := by simpa using hne
      rw [getFunctionProbe, hb] at hja
      cases hja

/-- Claim C10, witness: against an endpoint that always answers 404,
`getFunction` returns the absent value instead of throwing. -/
theorem getFunction_never_throws_witness : getFunction demo404Responses = none :=
  (getFunction_never_throws demo404Responses).1 (fun i _ => by simp [demo404Responses])

end FunctionAppService
